import Mathlib

/-!
# Dispatcher backend: verified shallow embedding

Lean embedding of the job-dispatch core of the `dispatcher` repository
(`src/backend/states.py`, `job.py`, `logger.py`, `main.py`, `queues.py`,
`specs.py`), together with theorems settling the specification claims.
Python dicts/JSON blobs are modelled by the inductive `JVal`; database rows
by Lean structures; nullable columns and Python `None` by `Option`.
Wall-clock times are abstracted to `Nat` tokens: the code only ever stores
"now" into `started_at`/`completed_at`, never computes with it.
-/

namespace Dispatcher

/-- JSON-like values, modelling the Python dict/JSON blobs stored in
`Job.parameters` and `Job.result` (`models.py`, `Column(JSON)`). -/
inductive JVal where
  | null : JVal
  | jstr : String → JVal
  | jobj : List (String × JVal) → JVal

/-- Python dict lookup `d.get(k)` on an object value. -/
def JVal.get (k : String) : JVal → Option JVal
  | .jobj fields => fields.lookup k
  | _ => none

/-- Python truthiness of a `JVal` (`None`, the empty string and the empty
dict are falsy). -/
def JVal.truthy : JVal → Bool
  | .null => false
  | .jstr s => !(s == "")
  | .jobj fields => !fields.isEmpty

/-- Python truthiness of an `Optional[str]` (`None` and `""` are falsy). -/
def pyTruthyStr : Option String → Bool
  | none => false
  | some s => !(s == "")

/-! ## `states.py` — the `JobStates` tables -/

/-- State name from `states.py` line 9. -/
def PENDING : String := "Pending"
/-- State name from `states.py` line 10. -/
def RUNNING : String := "Running"
/-- State name from `states.py` line 11. -/
def COMPLETED : String := "Completed"
/-- State name from `states.py` line 12. -/
def FAILED : String := "Failed"
/-- State name from `states.py` line 13. -/
def CANCELLED : String := "Cancelled"

/-- Transition table from `states.py` lines 16-22 (`_valid_transitions`),
as the lookup `dict.get(from_state, [])`. -/
def validTransitions (fromState : String) : List String :=
  if fromState == PENDING then [RUNNING, CANCELLED]
  else if fromState == RUNNING then [COMPLETED, FAILED, CANCELLED]
  else if fromState == COMPLETED then []
  else if fromState == FAILED then [PENDING]
  else if fromState == CANCELLED then []
  else []

/-- Predicate from `states.py` lines 38-40 (`JobStates.is_valid_transition`). -/
def isValidTransition (fromState toState : String) : Bool :=
  (validTransitions fromState).contains toState

/-- Terminal-state set from `states.py` line 25 (`_terminal_states`). -/
def terminalStates : List String := [COMPLETED, FAILED, CANCELLED]

/-- Predicate from `states.py` lines 42-44 (`JobStates.is_terminal`). -/
def isTerminal (state : String) : Bool := terminalStates.contains state

/-- Predicate from `states.py` lines 50-52 (`JobStates.is_retryable`). -/
def isRetryable (state : String) : Bool := state == FAILED

/-! ## `models.py` — the `Job` row -/

/-- Row of the `jobs` table (`models.py` lines 30-54), restricted to the
columns the dispatch pipeline reads or writes.  Nullable columns are
`Option`; `parameters` may be SQL `NULL`, which is `JVal.null`. -/
structure JobRec where
  id : Nat
  name : String
  status : String
  progress : Option Nat
  createdBy : String
  parameters : JVal
  result : Option JVal
  errorMessage : Option String
  workerName : Option String
  queueName : Option String
  assignedWorkerName : Option String
  retries : Nat
  startedAt : Option Nat
  completedAt : Option Nat

/-! ## `job.py` — the job service -/

/-- Core of `Job.update_status` (`job.py` lines 230-270) once the row has
been fetched: assign `status` unconditionally, assign each optional field
that was passed, then stamp `started_at` on a move to Running (if unset)
or else `completed_at` on a move into a terminal state (if unset). -/
def applyStatusUpdate (j : JobRec) (now : Nat) (status : String)
    (progress : Option Nat) (result : Option JVal)
    (errorMessage : Option String) (workerName : Option String) : JobRec :=
  let j := { j with status := status }
  let j := match progress with | some p => { j with progress := some p } | none => j
  let j := match result with | some r => { j with result := some r } | none => j
  let j := match errorMessage with
    | some e => { j with errorMessage := some e }
    | none => j
  let j := match workerName with
    | some w => { j with workerName := some w }
    | none => j
  if status == RUNNING && j.startedAt == none then
    { j with startedAt := some now }
  else if isTerminal status && j.completedAt == none then
    { j with completedAt := some now }
  else j

/-- `Job.update_status` (`job.py` lines 230-270): `None` when the id does
not resolve to a row, otherwise the updated row. -/
def updateStatus (fetched : Option JobRec) (now : Nat) (status : String)
    (progress : Option Nat) (result : Option JVal)
    (errorMessage : Option String) (workerName : Option String) :
    Option JobRec :=
  fetched.map fun j =>
    applyStatusUpdate j now status progress result errorMessage workerName

/-- Python `args or {}` as used by `Job.create` (`job.py` line 55). -/
def pyOrEmptyObj : Option JVal → JVal
  | none => .jobj []
  | some v => if v.truthy then v else .jobj []

/-- Structured parameters built by `Job.create` (`job.py` lines 52-56). -/
def mkParameters (name createdBy : String) (args : Option JVal) : JVal :=
  .jobj [("spec_name", .jstr name), ("created_by", .jstr createdBy),
         ("runtime_args", pyOrEmptyObj args)]

/-- `Job.create` (`job.py` lines 41-93), modulo the store assigning the id
and the log-file side effects: a fresh Pending row with the structured
parameters blob and column defaults (`progress=0`, `retries=0`). -/
def jobCreate (newId : Nat) (name : String) (args : Option JVal)
    (createdBy : String) (targetQueue : Option String) : JobRec :=
  { id := newId
    name := name
    status := PENDING
    progress := some 0
    createdBy := createdBy
    parameters := mkParameters name createdBy args
    result := none
    errorMessage := none
    workerName := none
    queueName := targetQueue
    assignedWorkerName := none
    retries := 0
    startedAt := none
    completedAt := none }

/-- `Job.retry` (`job.py` lines 288-323): `None` if the job is missing or
not retryable; otherwise the original with `retries` incremented, paired
with the clone produced by `Job.create(name=job.name, args=job.parameters,
created_by=user_id)`. -/
def jobRetry (fetched : Option JobRec) (newId : Nat) (userId : String) :
    Option (JobRec × JobRec) :=
  match fetched with
  | none => none
  | some j =>
    if isRetryable j.status then
      some ({ j with retries := j.retries + 1 },
            jobCreate newId j.name (some j.parameters) userId none)
    else
      none

/-- `Job.update_result` (`job.py` lines 549-563) on a fetched row: keep the
current status only when it is `Completed` or `Failed`, otherwise switch to
`Completed`; then run `update_status` with the result attached. -/
def jobUpdateResult (j : JobRec) (now : Nat) (result : JVal) : JobRec :=
  let status := if ["Completed", "Failed"].contains j.status
    then j.status else "Completed"
  applyStatusUpdate j now status none (some result) none none

/-- Python `str.strip()` (whitespace from both ends). -/
def pyStrip (s : String) : String :=
  ⟨((s.data.dropWhile Char.isWhitespace).reverse.dropWhile
      Char.isWhitespace).reverse⟩

/-- Guard in `Job.update_error` (`job.py` line 573):
`not job_record.error_message or job_record.error_message.strip() == ""`. -/
def errorMessageUnset (em : Option String) : Bool :=
  match em with
  | none => true
  | some s => s == "" || pyStrip s == ""

/-- `Job.update_error` (`job.py` lines 565-585) on a fetched row: always
force status `Failed`, but write the message only when no non-blank message
is present. -/
def jobUpdateError (j : JobRec) (errorMessage : String) : JobRec :=
  if errorMessageUnset j.errorMessage then
    { j with errorMessage := some errorMessage, status := "Failed" }
  else
    { j with status := "Failed" }

/-! ## `logger.py` — the log consumer's keyword parsing -/

/-- Database mutation performed by the `ERROR=` branch of
`Logger._parse_keywords_sync` (`logger.py` lines 925-930), given the error
message the branch derived from the captured text: the Redis-consumer path
assigns `error_message` and `status = "Failed"` directly on the row, with
no check of a previously stored message. -/
def parseKeywordsSyncErrorUpdate (j : JobRec) (errorMessage : String) :
    JobRec :=
  { j with errorMessage := some errorMessage, status := "Failed" }

/-! ## `main.py` — the worker status callback -/

/-- Python `str(...)` on the `Optional[int]` exit code, as interpolated by
the f-string at `main.py` line 2338. -/
def pyStrOptInt : Option Int → String
  | none => "None"
  | some n => toString n

/-- Python `x or default` on an `Optional[str]`
(`main.py` line 2351: `request.error or "Worker reported job failure"`). -/
def pyOrStr (o : Option String) (fallback : String) : String :=
  match o with
  | some s => if s == "" then fallback else s
  | none => fallback

/-- Body of `POST /api/node/status` (`main.py`, `JobStatusRequest` at
lines 53-57). -/
structure NodeStatusRequest where
  status : String
  exitCode : Option Int
  error : Option String

/-- Job-row effect of the worker status callback handler
`update_job_status` (`main.py` lines 2313-2356), for a fetched row.  The
queue removal and log-handle closing side effects are outside the row
model.  `started` moves the job to Running; `completed` with exit code 0
moves it to Completed (progress 100) unless it is already Failed;
`completed` with any other exit code moves it to Failed carrying the
message `"Process exited with code <n>"`; `failed` moves it to Failed,
attaching `request.error or "Worker reported job failure"` only when no
truthy `error_message` is present.  Unknown statuses fall through. -/
def nodeStatusUpdate (req : NodeStatusRequest) (j : JobRec) (now : Nat) :
    JobRec :=
  if req.status == "started" then
    applyStatusUpdate j now "Running" none none none none
  else if req.status == "completed" then
    if req.exitCode == some 0 then
      if !(j.status == "Failed") then
        applyStatusUpdate j now "Completed" (some 100) none none none
      else j
    else
      applyStatusUpdate j now "Failed" j.progress none
        (some ("Process exited with code " ++ pyStrOptInt req.exitCode)) none
  else if req.status == "failed" then
    if pyTruthyStr j.errorMessage then
      applyStatusUpdate j now "Failed" none none none none
    else
      applyStatusUpdate j now "Failed" none none
        (some (pyOrStr req.error "Worker reported job failure")) none
  else j

/-! ## `queues.py` — dispatch-failure classification, queue order, requeue -/

/-- Python substring test `needle in hay` on character lists. -/
def containsSublist (hay needle : List Char) : Bool :=
  needle.isPrefixOf hay ||
    (match hay with
     | [] => false
     | _ :: t => containsSublist t needle)

/-- Python `needle in hay` on strings. -/
def pyIn (needle hay : String) : Bool := containsSublist hay.data needle.data

/-- Python `str.lower()` (ASCII range, which covers every string the
classifier compares). -/
def lowerStr (s : String) : String := ⟨s.data.map Char.toLower⟩

/-- Temporary-failure keywords (`queues.py` lines 690-694). -/
def temporaryFailures : List String :=
  ["No workers assigned",
   "No started and online workers available",
   "No workers with available capacity"]

/-- Permanent-failure keywords (`queues.py` lines 697-705). -/
def permanentFailures : List String :=
  ["rejected job",
   "Exception during dispatch",
   "Server error",
   "Internal Server Error",
   "Failed to start command",
   "Connection refused",
   "timeout"]

/-- First loop of `_should_retry_dispatch_failure` (`queues.py` lines
708-710): return on the first temporary keyword contained in the reason. -/
def findTempHit (reason : String) : List String → Bool
  | [] => false
  | t :: rest => if pyIn t reason then true else findTempHit reason rest

/-- Second loop of `_should_retry_dispatch_failure` (`queues.py` lines
713-715): case-insensitive containment of a permanent keyword. -/
def findPermHit (reason : String) : List String → Bool
  | [] => false
  | p :: rest =>
    if pyIn (lowerStr p) (lowerStr reason) then true else findPermHit reason rest

/-- `Queue._should_retry_dispatch_failure` (`queues.py` lines 687-718):
`true` means temporary (requeue), `false` means permanent (fail the job).
Unknown reasons default to retry. -/
def shouldRetryDispatchFailure (reason : String) : Bool :=
  if findTempHit reason temporaryFailures then true
  else if findPermHit reason permanentFailures then false
  else true

/-- Queue row (`models.py` lines 228-235), restricted to the columns the
dispatcher loop reads.  `priority` is a plain string column. -/
structure QueueRec where
  id : Nat
  name : String
  state : String
  priority : String
  deriving DecidableEq

/-- Lexicographic (byte-order) comparison on character lists, the order a
SQL `ORDER BY` applies to a varchar column of ASCII words. -/
def charListLe : List Char → List Char → Bool
  | [], _ => true
  | _ :: _, [] => false
  | a :: as, b :: bs =>
    if a < b then true else if b < a then false else charListLe as bs

/-- Lexicographic comparison on strings. -/
def strLe (a b : String) : Bool := charListLe a.data b.data

/-- Insertion step of a stable ascending sort on the priority column. -/
def orderedInsertQ (q : QueueRec) : List QueueRec → List QueueRec
  | [] => [q]
  | r :: rest =>
    if strLe q.priority r.priority then q :: r :: rest
    else r :: orderedInsertQ q rest

/-- Stable ascending sort on the priority column. -/
def insertionSortQ : List QueueRec → List QueueRec
  | [] => []
  | q :: rest => orderedInsertQ q (insertionSortQ rest)

/-- Queue selection of one dispatcher cycle (`queues.py` lines 736-741):
`filter_by(state='started')` then `order_by(QueueModel.priority)`, i.e. an
ascending sort on the priority string column. -/
def startedQueuesOrdered (qs : List QueueRec) : List QueueRec :=
  insertionSortQ (qs.filter fun q => q.state == "started")

/-- Sample queue rows with `normal` and `low` priority. -/
def qNormal : QueueRec :=
  { id := 1, name := "alpha", state := "started", priority := "normal" }

/-- Sample queue row with `low` priority. -/
def qLow : QueueRec :=
  { id := 2, name := "beta", state := "started", priority := "low" }

/-- `Queue.get_next_job` (`queues.py` lines 640-647): pop the head of the
in-memory FIFO list, returning the popped id and the remaining list. -/
def getNextJob (qs : List Nat) : Option Nat × List Nat :=
  match qs with
  | [] => (none, [])
  | j :: t => (some j, t)

/-- Requeue on a temporary dispatch failure (`queues.py` lines 768-772):
`self._queues[queue_model.name].append(job_id)`, an append at the tail of
the in-memory list. -/
def requeueTemporaryFailure (qs : List Nat) (jobId : Nat) : List Nat :=
  qs ++ [jobId]

/-! ## `specs.py` — the specification registry -/

/-- Row of the `specs` table (`models.py` lines 100-109). -/
structure SpecRec where
  id : Nat
  name : String
  command : String
  createdBy : String
  isActive : Bool
  deriving DecidableEq

/-- `Specs.create` (`specs.py` lines 27-55): the duplicate-name check
queries on the name alone, with no `is_active` filter; on success the new
active row is appended to the store. -/
def specsCreate (store : List SpecRec) (newId : Nat)
    (name command createdBy : String) :
    Except String (List SpecRec × SpecRec) :=
  if (store.find? fun s => s.name == name).isSome then
    .error ("Specification with name " ++ name ++ " already exists")
  else
    let spec : SpecRec :=
      { id := newId, name := name, command := command,
        createdBy := createdBy, isActive := true }
    .ok (store ++ [spec], spec)

/-- Helper for `Specs.delete`: flip `is_active` on the first matching
active row, leaving the row in the store. -/
def softDeleteFirst (specId : Nat) : List SpecRec → List SpecRec
  | [] => []
  | s :: t =>
    if s.id == specId && s.isActive then
      { s with isActive := false } :: t
    else
      s :: softDeleteFirst specId t

/-- `Specs.delete` (`specs.py` lines 131-147): soft delete — look up an
active row by id, set `is_active = False`, keep the row. -/
def specsDelete (store : List SpecRec) (specId : Nat) :
    List SpecRec × Bool :=
  if (store.find? fun s => s.id == specId && s.isActive).isSome then
    (softDeleteFirst specId store, true)
  else
    (store, false)

/-! ## `queues.py` lines 884-903 — template substitution in `_dispatch_job`

The regex `\x7b\x7b(\w+)\x7d\x7d` is embedded as an explicit scanner.
`re.sub` walks the subject left to right, replacing non-overlapping
leftmost matches and never rescanning replacement text; the scanner
produces the same decomposition into literal characters and placeholder
matches.  Greedy `\w+` with backtracking is equivalent to maximal-munch
here because after a maximal word run the only way to complete the match
is an immediate closing brace pair.  The scanner takes fuel (each step
consumes at least one character, so the subject length is enough fuel),
which keeps every definition structurally recursive and executable. -/

/-- Opening brace character. -/
def lbrace : Char := '\x7b'

/-- Closing brace character. -/
def rbrace : Char := '\x7d'

/-- Word character class of the regex (`\w`, ASCII range: the commands
and keys the dispatcher handles). -/
def isWordChar (c : Char) : Bool := c.isAlphanum || c == '_'

/-- Leftmost-anchored match of `\x7b\x7b(\w+)\x7d\x7d` at the head of the
input: on success, the captured key and the characters after the match. -/
def matchPlaceholder : List Char → Option (String × List Char)
  | c₁ :: c₂ :: rest =>
    if c₁ == lbrace && c₂ == lbrace then
      let key := rest.takeWhile isWordChar
      match rest.dropWhile isWordChar with
      | d₁ :: d₂ :: rest2 =>
        if !key.isEmpty && d₁ == rbrace && d₂ == rbrace then
          some (String.mk key, rest2)
        else none
      | _ => none
    else none
  | _ => none

/-- A segment of the subject as seen by `re.sub`: a literal character
outside any match, or one placeholder match carrying its key. -/
inductive Seg where
  | lit : Char → Seg
  | ph : String → Seg
  deriving DecidableEq

/-- Fuelled scan of the subject into segments, following `re.sub`'s
leftmost non-overlapping walk. -/
def scanSegsGo : Nat → List Char → List Seg
  | _, [] => []
  | 0, _ => []
  | fuel + 1, c :: rest =>
    match matchPlaceholder (c :: rest) with
    | some kr => .ph kr.1 :: scanSegsGo fuel kr.2
    | none => .lit c :: scanSegsGo fuel rest

/-- Scan of a subject into literal/placeholder segments. -/
def scanSegs (l : List Char) : List Seg := scanSegsGo l.length l

/-- Replacement of one scanned segment, following `replace_template`
(`queues.py` lines 890-896): a key found in the job args is replaced by
its value, a missing key reproduces `match.group(0)` literally. -/
def renderSeg (lookup : String → Option String) : Seg → List Char
  | .lit c => [c]
  | .ph k =>
    match lookup k with
    | some v => v.data
    | none => lbrace :: lbrace :: (k.data ++ rbrace :: rbrace :: [])

/-- `template_pattern.sub(replace_template, command)`
(`queues.py` line 898) on character lists. -/
def substTemplate (lookup : String → Option String) (l : List Char) :
    List Char :=
  (scanSegs l).flatMap (renderSeg lookup)

/-- Keys of all placeholder matches in a subject (the matches
`template_pattern` finds, in order). -/
def placeholderKeys (l : List Char) : List String :=
  (scanSegs l).filterMap fun s =>
    match s with
    | .ph k => some k
    | .lit _ => none

/-- Test for `template_pattern.search(command)` (`queues.py` line 888):
the search succeeds exactly when the scan finds a placeholder. -/
def hasPlaceholder (l : List Char) : Bool :=
  !(placeholderKeys l).isEmpty

/-- Python `repr` of a `JVal`, as `str()` of a dict renders its entries
(faithful for values free of quote and backslash characters, which covers
every value the dispatcher's own job parameters contain). -/
def JVal.pyRepr : JVal → String
  | .null => "None"
  | .jstr s => "\x27" ++ s ++ "\x27"
  | .jobj fields => "\x7b" ++
      String.intercalate ", "
        (fields.attach.map fun kv =>
          "\x27" ++ kv.1.1 ++ "\x27: " ++ pyRepr kv.1.2) ++ "\x7d"
  decreasing_by
    obtain ⟨⟨k, v⟩, hm⟩ := kv
    have h := List.sizeOf_lt_of_mem hm
    simp at h ⊢
    omega

/-- Python `str(...)` as applied to a job-arg value
(`queues.py` line 893). -/
def JVal.pyStr : JVal → String
  | .null => "None"
  | .jstr s => s
  | .jobj fields => JVal.pyRepr (.jobj fields)

/-- Extraction of the job args from `job.parameters`
(`queues.py` lines 877-884): falsy parameters give an empty dict, a dict
carrying a `runtime_args` key gives that entry, anything else is used
whole. -/
def extractJobArgs (p : JVal) : JVal :=
  if p.truthy then
    match p with
    | .jobj fields =>
      match fields.lookup "runtime_args" with
      | some v => v
      | none => p
    | _ => p
  else .jobj []

/-- Key lookup inside `replace_template` (`queues.py` lines 891-893):
only a dict of job args resolves keys, and a found value passes through
`str(...)`. -/
def templateLookup (jobArgs : JVal) (key : String) : Option String :=
  match jobArgs with
  | .jobj fields => (fields.lookup key).map JVal.pyStr
  | _ => none

/-- Command built by `_dispatch_job` (`queues.py` lines 886-899): when the
spec's command contains a placeholder, the template substitution runs over
it; otherwise the command is passed through unchanged (runtime args then
travel as a JSON argument, outside the command string). -/
def dispatchCommand (command : String) (parameters : JVal) : String :=
  let jobArgs := extractJobArgs parameters
  if hasPlaceholder command.data then
    String.mk (substTemplate (templateLookup jobArgs) command.data)
  else command

/-- Rendering of a segment list back into a subject string: the shape of
commands whose braces all come from well-formed placeholders. -/
def renderSegs : List Seg → List Char
  | [] => []
  | .lit c :: t => c :: renderSegs t
  | .ph k :: t => lbrace :: lbrace :: (k.data ++ rbrace :: rbrace :: renderSegs t)

/-- Shape condition on an input segment: literal characters are not
opening braces, and every placeholder key is a nonempty word.  Commands
whose braces all come from well-formed placeholders render from such
segment lists. -/
def segShapeOk : Seg → Prop
  | .lit c => c ≠ lbrace
  | .ph k => k.data ≠ [] ∧ ∀ c ∈ k.data, isWordChar c = true

/-- Value condition on an input segment: the lookup resolves the key to a
value free of opening braces. -/
def segValOk (lookup : String → Option String) : Seg → Prop
  | .lit _ => True
  | .ph k => ∃ v, lookup k = some v ∧ ∀ c ∈ v.data, c ≠ lbrace

/-! ## Sample rows and spec-side definitions

The claim-side classifiers below follow the words of the specification
(not the source); they exist to be compared against the source-derived
definitions above. -/

/-- Sample job row used by concrete counterexamples and witnesses. -/
def exampleJob (status : String) (errorMessage : Option String) : JobRec :=
  { id := 1
    name := "greet"
    status := status
    progress := some 0
    createdBy := "alice"
    parameters := .null
    result := none
    errorMessage := errorMessage
    workerName := none
    queueName := some "default"
    assignedWorkerName := none
    retries := 0
    startedAt := none
    completedAt := none }

/-- Sample structured parameters blob, as `Job.create` would build it for
a job submitted by `alice` with no runtime args. -/
def exampleParameters : JVal :=
  .jobj [("spec_name", .jstr "greet"), ("created_by", .jstr "alice"),
         ("runtime_args", .jobj [])]

/-- Sample failed job carrying the structured parameters blob, used by the
retry counterexample. -/
def retryOriginal : JobRec :=
  { exampleJob FAILED none with parameters := exampleParameters }

/-- Outcome of retrying the sample failed job as user `bob`. -/
def retryResult : Option (JobRec × JobRec) :=
  jobRetry (some retryOriginal) 42 "bob"

/-- Sample specification row. -/
def exampleSpec : SpecRec :=
  { id := 3, name := "greet", command := "echo hello",
    createdBy := "alice", isActive := true }

/-- Permanent-failure keywords as listed by the claim for C4 (the spec's
section 7), without the two extra keywords the source checks. -/
def claimPermanentKeywords : List String :=
  ["rejected job",
   "Server error",
   "Failed to start command",
   "Connection refused",
   "timeout"]

/-- Classifier asserted by claim C4, following the spec's words:
permanent (no retry) exactly when the reason contains one of the five
listed keywords, temporary (retry) for every other string. -/
def claimRetryClassifierC4 (reason : String) : Bool :=
  !(claimPermanentKeywords.any fun p => pyIn p reason)

/-- Classifier the source actually implements, stated as the amended
claim words it: the three temporary keywords are checked first
(case-sensitively), then the seven permanent keywords case-insensitively,
and everything else defaults to temporary. -/
def amendedRetryClassifier (reason : String) : Bool :=
  if temporaryFailures.any (fun t => pyIn t reason) then true
  else !(permanentFailures.any fun p => pyIn (lowerStr p) (lowerStr reason))

/-- Priority ranking asserted by claim C5, following the spec's words:
critical first, then high, then normal, then low. -/
def claimPriorityRank (p : String) : Nat :=
  if p == "critical" then 0
  else if p == "high" then 1
  else if p == "normal" then 2
  else if p == "low" then 3
  else 4

/-! ## Helper lemmas on `applyStatusUpdate` -/

/-- The status written by `update_status` is the requested one. -/
theorem applyStatusUpdate_status (j : JobRec) (now : Nat) (status : String)
    (p : Option Nat) (r : Option JVal) (e : Option String)
    (w : Option String) :
    (applyStatusUpdate j now status p r e w).status = status := by
  simp only [applyStatusUpdate]
  rcases p with _ | p <;> rcases r with _ | r <;> rcases e with _ | e <;>
    rcases w with _ | w <;> split_ifs <;> rfl

/-- The error message after `update_status`: the passed one if any,
otherwise the previous one. -/
theorem applyStatusUpdate_errorMessage (j : JobRec) (now : Nat)
    (status : String) (p : Option Nat) (r : Option JVal) (e : Option String)
    (w : Option String) :
    (applyStatusUpdate j now status p r e w).errorMessage =
      (match e with | some m => some m | none => j.errorMessage) := by
  simp only [applyStatusUpdate]
  rcases p with _ | p <;> rcases r with _ | r <;> rcases e with _ | e <;>
    rcases w with _ | w <;> split_ifs <;> rfl

/-- The result after `update_status`: the passed one if any, otherwise the
previous one. -/
theorem applyStatusUpdate_result (j : JobRec) (now : Nat) (status : String)
    (p : Option Nat) (r : Option JVal) (e : Option String)
    (w : Option String) :
    (applyStatusUpdate j now status p r e w).result =
      (match r with | some v => some v | none => j.result) := by
  simp only [applyStatusUpdate]
  rcases p with _ | p <;> rcases r with _ | r <;> rcases e with _ | e <;>
    rcases w with _ | w <;> split_ifs <;> rfl

/-! ## Claim C1 — transition enforcement in `Job.update_status` -/

/-- C1, counterexample: `Job.update_status` consults no transition table.
Asking a `Completed` job to become `Running` — a pair outside the allowed
transition set — is not a no-op: the returned job carries the new status. -/
theorem c1_counterexample :
    (updateStatus (some (exampleJob COMPLETED none)) 5 RUNNING
        none none none none).map JobRec.status = some RUNNING ∧
    (exampleJob COMPLETED none).status = COMPLETED ∧
    isValidTransition COMPLETED RUNNING = false := by
  decide

/-- C1, amended: `Job.update_status` applies the requested status
unconditionally to any fetched job, whatever the current status; the
transition table of `states.py` is never consulted, so a request outside
the table updates the job rather than leaving it unchanged.  A missing job
yields `None`. -/
theorem c1_update_status_unconditional (j : JobRec) (now : Nat)
    (status : String) (progress : Option Nat) (result : Option JVal)
    (errorMessage : Option String) (workerName : Option String) :
    updateStatus none now status progress result errorMessage workerName
      = none ∧
    (updateStatus (some j) now status progress result errorMessage
        workerName).map JobRec.status = some status := by
  refine ⟨rfl, ?_⟩
  simp only [updateStatus, Option.map_some', applyStatusUpdate]
  rcases progress with _ | p <;> rcases result with _ | r <;>
    rcases errorMessage with _ | e <;> rcases workerName with _ | w <;>
    simp only [] <;> split_ifs <;> rfl

/-! ## Claim C7 — `Job.update_result` and terminal states -/

/-- C7, counterexample: `update_result` only keeps the status of jobs in
`Completed` or `Failed`; a `Cancelled` job — terminal — is moved to
`Completed`, contradicting the claim that every terminal job keeps its
status. -/
theorem c7_counterexample :
    isTerminal CANCELLED = true ∧
    (jobUpdateResult (exampleJob CANCELLED none) 7 (.jstr "r")).status
      = COMPLETED := by
  decide

/-- C7, amended: `update_result` stores the result and moves the job to
`Completed` exactly when its status is neither `Completed` nor `Failed`;
in particular a `Cancelled` job is moved to `Completed` rather than
keeping its terminal status. -/
theorem c7_update_result (j : JobRec) (now : Nat) (r : JVal) :
    (jobUpdateResult j now r).result = some r ∧
    (jobUpdateResult j now r).status =
      (if j.status = "Completed" ∨ j.status = "Failed"
        then j.status else "Completed") := by
  have hc : (["Completed", "Failed"].contains j.status) =
      (decide (j.status = "Completed" ∨ j.status = "Failed")) := by
    by_cases h₁ : j.status = "Completed" <;>
      by_cases h₂ : j.status = "Failed" <;>
      simp [h₁, h₂]
  constructor
  · simp only [jobUpdateResult, applyStatusUpdate]
    split_ifs <;> rfl
  · simp only [jobUpdateResult, applyStatusUpdate, hc]
    by_cases h : j.status = "Completed" ∨ j.status = "Failed" <;>
      simp [h] <;> split_ifs <;> rfl

/-! ## Claim C2 — the log consumer's `ERROR=` path -/

/-- C2, counterexample: the Redis log consumer's keyword parser
(`_parse_keywords_sync`) assigns the log-parsed message over a
previously-set non-empty `error_message` instead of preserving it. -/
theorem c2_counterexample :
    pyTruthyStr (exampleJob RUNNING (some "worker said boom")).errorMessage
      = true ∧
    (parseKeywordsSyncErrorUpdate
        (exampleJob RUNNING (some "worker said boom")) "nope").errorMessage
      = some "nope" ∧
    (parseKeywordsSyncErrorUpdate
        (exampleJob RUNNING (some "worker said boom")) "nope").status
      = FAILED := by
  decide

/-- C2, amended: on an `ERROR=` keyword the Redis log consumer sets the
job's status to `Failed` and unconditionally overwrites `error_message`
with the log-parsed message; the preserve-an-earlier-message behaviour
lives only in `Job.update_error` (used by the async append path and by
permanent dispatch failures), which leaves a non-blank message intact. -/
theorem c2_log_consumer_overwrites (j : JobRec) (m : String) :
    (parseKeywordsSyncErrorUpdate j m).status = "Failed" ∧
    (parseKeywordsSyncErrorUpdate j m).errorMessage = some m ∧
    (errorMessageUnset j.errorMessage = false →
      jobUpdateError j m = { j with status := "Failed" }) := by
  refine ⟨rfl, rfl, fun h => ?_⟩
  simp [jobUpdateError, h]

/-- C2, witness: the amended theorem applied to a job holding the
non-blank message `"boom"`. -/
theorem c2_witness :
    errorMessageUnset (exampleJob RUNNING (some "boom")).errorMessage
      = false ∧
    jobUpdateError (exampleJob RUNNING (some "boom")) "nope"
      = { exampleJob RUNNING (some "boom") with status := "Failed" } :=
  ⟨by decide, (c2_log_consumer_overwrites _ _).2.2 (by decide)⟩

/-! ## Claim C3 — worker callback with a nonzero exit code -/

/-- C3, counterexample: the `completed`-with-nonzero-exit-code branch of
the status callback handler writes `"Process exited with code 1"` over a
job that already carries the log-parsed message `"nope"`; the pre-existing
message is not preserved. -/
theorem c3_counterexample :
    pyTruthyStr (exampleJob RUNNING (some "nope")).errorMessage = true ∧
    (nodeStatusUpdate ⟨"completed", some 1, none⟩
        (exampleJob RUNNING (some "nope")) 9).errorMessage
      = some "Process exited with code 1" ∧
    (nodeStatusUpdate ⟨"completed", some 1, none⟩
        (exampleJob RUNNING (some "nope")) 9).status = FAILED := by
  decide

/-- C3, amended: the exit-code message is produced by the `completed`
branch of the callback handler, where a nonzero exit code unconditionally
sets `Failed` with `"Process exited with code <n>"`, overwriting any
earlier message; only the `failed` branch preserves a truthy pre-existing
`error_message` (and its fallback message is the worker error or
`"Worker reported job failure"`, never the exit-code text). -/
theorem c3_exit_code_message (j : JobRec) (req : NodeStatusRequest)
    (now : Nat) (n : Int) :
    (req.status = "completed" → req.exitCode = some n → n ≠ 0 →
      (nodeStatusUpdate req j now).errorMessage
          = some ("Process exited with code " ++ toString n) ∧
        (nodeStatusUpdate req j now).status = "Failed") ∧
    (req.status = "failed" → pyTruthyStr j.errorMessage = true →
      (nodeStatusUpdate req j now).errorMessage = j.errorMessage ∧
        (nodeStatusUpdate req j now).status = "Failed") := by
  constructor
  · intro hs he hn
    have hne : (req.exitCode == some 0) = false := by
      rw [he]; simpa using hn
    have hred : nodeStatusUpdate req j now =
        applyStatusUpdate j now "Failed" j.progress none
          (some ("Process exited with code " ++ pyStrOptInt req.exitCode))
          none := by
      simp [nodeStatusUpdate, hs, hne]
    rw [hred, he]
    exact ⟨applyStatusUpdate_errorMessage .., applyStatusUpdate_status ..⟩
  · intro hs ht
    have hred : nodeStatusUpdate req j now =
        applyStatusUpdate j now "Failed" none none none none := by
      simp [nodeStatusUpdate, hs, ht]
    rw [hred]
    exact ⟨applyStatusUpdate_errorMessage .., applyStatusUpdate_status ..⟩

/-- C3, witness: the amended theorem applied to both branches at concrete
requests — exit code 2 on `completed`, and `failed` over a job already
carrying the message `"nope"`. -/
theorem c3_witness :
    ((nodeStatusUpdate ⟨"completed", some 2, none⟩
          (exampleJob RUNNING none) 4).errorMessage
        = some ("Process exited with code " ++ toString (2 : Int)) ∧
      (nodeStatusUpdate ⟨"completed", some 2, none⟩
          (exampleJob RUNNING none) 4).status = "Failed") ∧
    ((nodeStatusUpdate ⟨"failed", some 1, none⟩
          (exampleJob RUNNING (some "nope")) 4).errorMessage
        = (exampleJob RUNNING (some "nope")).errorMessage ∧
      (nodeStatusUpdate ⟨"failed", some 1, none⟩
          (exampleJob RUNNING (some "nope")) 4).status = "Failed") :=
  ⟨(c3_exit_code_message (exampleJob RUNNING none)
      ⟨"completed", some 2, none⟩ 4 2).1 rfl rfl (by decide),
   (c3_exit_code_message (exampleJob RUNNING (some "nope"))
      ⟨"failed", some 1, none⟩ 4 1).2 rfl (by decide)⟩

/-! ## Claim C4 — dispatch-failure classification -/

/-- The first classifier loop returns a hit exactly when some temporary
keyword is contained in the reason. -/
theorem findTempHit_eq_any (reason : String) (l : List String) :
    findTempHit reason l = l.any fun t => pyIn t reason := by
  induction l with
  | nil => rfl
  | cons t rest ih =>
    cases hpi : pyIn t reason <;> simp [findTempHit, hpi, ih]

/-- The second classifier loop returns a hit exactly when some permanent
keyword is contained case-insensitively in the reason. -/
theorem findPermHit_eq_any (reason : String) (l : List String) :
    findPermHit reason l
      = l.any fun p => pyIn (lowerStr p) (lowerStr reason) := by
  induction l with
  | nil => rfl
  | cons p rest ih =>
    cases hpi : pyIn (lowerStr p) (lowerStr reason) <;>
      simp [findPermHit, hpi, ih]

/-- C4, counterexample: three reasons on which the source classifier and
the claim's classifier disagree.  `"Exception during dispatch"` and
`"Internal Server Error"` are permanent keywords the claim omits;
`"Connection TIMEOUT while dispatching"` matches `"timeout"` only through
the source's case-insensitive comparison; and a reason containing both a
temporary and a permanent keyword is temporary in the source because the
temporary list is checked first, while the claim's "exactly when" would
make it permanent. -/
theorem c4_counterexample :
    (shouldRetryDispatchFailure "Exception during dispatch" = false ∧
      claimRetryClassifierC4 "Exception during dispatch" = true) ∧
    (shouldRetryDispatchFailure "Connection TIMEOUT while dispatching"
        = false ∧
      claimRetryClassifierC4 "Connection TIMEOUT while dispatching"
        = true) ∧
    (shouldRetryDispatchFailure "timeout, but also No workers assigned"
        = true ∧
      claimRetryClassifierC4 "timeout, but also No workers assigned"
        = false) := by
  decide

/-- C4, amended: the classifier checks the three temporary keywords first
(case-sensitive containment); otherwise it is permanent exactly when one
of the seven permanent keywords — the claim's five plus
`"Exception during dispatch"` and `"Internal Server Error"` — is contained
case-insensitively; every other reason defaults to temporary. -/
theorem c4_classifier_characterisation (reason : String) :
    shouldRetryDispatchFailure reason = amendedRetryClassifier reason := by
  rw [shouldRetryDispatchFailure, amendedRetryClassifier,
    findTempHit_eq_any, findPermHit_eq_any]
  cases htmp : temporaryFailures.any fun t => pyIn t reason <;>
    cases hperm : permanentFailures.any
        (fun p => pyIn (lowerStr p) (lowerStr reason)) <;>
    simp [htmp, hperm]

/-! ## Claim C6 — retry clones -/

/-- C6, counterexample: retrying the sample failed job as `bob` does
create a Pending clone with the same name and bump `retries`, but the
clone's parameters are the create-wrapper around the original's whole
parameters blob — its `created_by` entry is `bob`, not `alice` — so the
clone's parameters do not equal the original's. -/
theorem c6_counterexample :
    (retryResult.map fun pr => pr.2.name) = some "greet" ∧
    (retryResult.map fun pr => pr.2.status) = some PENDING ∧
    (retryResult.map fun pr => pr.1.retries) = some 1 ∧
    (retryResult.map fun pr => pr.2.parameters.get "created_by")
      = some (some (.jstr "bob")) ∧
    retryOriginal.parameters.get "created_by" = some (.jstr "alice") ∧
    (retryResult.map fun pr => pr.2.parameters)
      ≠ some retryOriginal.parameters := by
  refine ⟨rfl, rfl, rfl, rfl, rfl, fun h => ?_⟩
  have h2 : (retryResult.map fun pr => pr.2.parameters).bind
        (JVal.get "created_by")
      = (some retryOriginal.parameters).bind (JVal.get "created_by") := by
    rw [h]
  have h3 : (some (JVal.jstr "bob") : Option JVal)
      = some (.jstr "alice") := h2
  injection h3 with h4
  injection h4 with h5
  exact absurd h5 (by decide)

/-- C6, amended: `Job.retry` succeeds exactly on a `Failed` job; it bumps
`retries` on the original and creates a Pending clone with the same name,
whose parameters are the standard create-wrapper — `spec_name` from the
original's name, `created_by` from the retrying user, and `runtime_args`
holding the original's entire parameters blob (not the original
parameters themselves). -/
theorem c6_retry_clone (orig : JobRec) (newId : Nat) (user : String) :
    (orig.status = FAILED →
      ∃ o' n, jobRetry (some orig) newId user = some (o', n) ∧
        n.name = orig.name ∧ n.status = PENDING ∧
        o'.retries = orig.retries + 1 ∧ o'.status = orig.status ∧
        n.parameters = mkParameters orig.name user (some orig.parameters)) ∧
    (orig.status ≠ FAILED → jobRetry (some orig) newId user = none) := by
  constructor
  · intro h
    have hr : jobRetry (some orig) newId user =
        some ({ orig with retries := orig.retries + 1 },
          jobCreate newId orig.name (some orig.parameters) user none) := by
      simp [jobRetry, isRetryable, h]
    exact ⟨_, _, hr, rfl, rfl, rfl, rfl, rfl⟩
  · intro h
    simp [jobRetry, isRetryable, h]

/-- C6, witness: the amended theorem applied to the sample failed job,
and to a Running job for the only-if direction. -/
theorem c6_witness :
    (∃ o' n, jobRetry (some retryOriginal) 42 "bob" = some (o', n) ∧
      n.name = retryOriginal.name ∧ n.status = PENDING ∧
      o'.retries = retryOriginal.retries + 1 ∧
      o'.status = retryOriginal.status ∧
      n.parameters = mkParameters retryOriginal.name "bob"
        (some retryOriginal.parameters)) ∧
    jobRetry (some (exampleJob RUNNING none)) 42 "bob" = none :=
  ⟨(c6_retry_clone retryOriginal 42 "bob").1 rfl,
   (c6_retry_clone (exampleJob RUNNING none) 42 "bob").2 (by decide)⟩

/-! ## Claim C9 — temporary failures requeue at the tail -/

/-- C9: a temporary dispatch failure appends the job id at the tail of the
queue's in-memory list — the previously queued prefix is untouched — and
the next pop returns the old head, so every other queued job is tried
before the requeued one. -/
theorem c9_requeue_tail (qs : List Nat) (j : Nat) :
    (requeueTemporaryFailure qs j).getLast? = some j ∧
    (requeueTemporaryFailure qs j).take qs.length = qs ∧
    (∀ x t, qs = x :: t →
      getNextJob (requeueTemporaryFailure qs j) = (some x, t ++ [j])) := by
  refine ⟨?_, ?_, ?_⟩
  · simp [requeueTemporaryFailure]
  · simp [requeueTemporaryFailure, List.take_left]
  · rintro x t rfl
    rfl

/-- C9, witness: the requeue facts at the concrete list `[7, 8]`. -/
theorem c9_witness :
    getNextJob (requeueTemporaryFailure [7, 8] 9) = (some 7, [8, 9]) :=
  (c9_requeue_tail [7, 8] 9).2.2 7 [8] rfl

/-! ## Claim C10 — soft-deleted names block creation -/

/-- Soft deletion keeps every row, so the stored names are unchanged. -/
theorem softDeleteFirst_names (specId : Nat) (l : List SpecRec) :
    (softDeleteFirst specId l).map SpecRec.name = l.map SpecRec.name := by
  induction l with
  | nil => rfl
  | cons s t ih =>
    rw [softDeleteFirst]
    split_ifs <;> simp [ih]

/-- `Specs.delete` preserves the stored names. -/
theorem specsDelete_names (store : List SpecRec) (specId : Nat) :
    (specsDelete store specId).1.map SpecRec.name
      = store.map SpecRec.name := by
  rw [specsDelete]
  split_ifs <;> simp [softDeleteFirst_names]

/-- C10: deleting a specification is a soft delete that keeps its row, and
the duplicate-name check in `Specs.create` queries by name alone, with no
`is_active` filter; hence creating any specification whose name is already
stored — soft-deleted or not — fails, and a deleted name can never be
reused. -/
theorem c10_deleted_name_blocks_create (store : List SpecRec)
    (specId : Nat) :
    (specsDelete store specId).1.map SpecRec.name
        = store.map SpecRec.name ∧
    (∀ s ∈ store, ∀ (newId : Nat) (command createdBy : String),
      ∃ msg, specsCreate (specsDelete store specId).1 newId s.name command
          createdBy = Except.error msg) := by
  refine ⟨specsDelete_names .., ?_⟩
  intro s hs newId command createdBy
  have hmem : s.name ∈ (specsDelete store specId).1.map SpecRec.name := by
    rw [specsDelete_names]
    exact List.mem_map_of_mem _ hs
  obtain ⟨t, ht, hname⟩ := List.mem_map.mp hmem
  have hfind :
      ((specsDelete store specId).1.find? fun u => u.name == s.name).isSome
        = true := by
    rw [List.find?_isSome]
    exact ⟨t, ht, by simp [hname]⟩
  refine ⟨"Specification with name " ++ s.name ++ " already exists", ?_⟩
  simp [specsCreate, hfind]

/-- C10, witness: after soft-deleting the sample spec, creating a new spec
named `greet` fails; the deleted row is still stored, inactive. -/
theorem c10_witness :
    ((specsDelete [exampleSpec] 3).1.map SpecRec.isActive = [false]) ∧
    ∃ msg, specsCreate (specsDelete [exampleSpec] 3).1 9 exampleSpec.name
        "echo again" "bob" = Except.error msg :=
  ⟨by decide,
   (c10_deleted_name_blocks_create [exampleSpec] 3).2 exampleSpec
     (by simp) 9 "echo again" "bob"⟩

/-! ## Claim C5 — queue selection and ordering in the dispatcher loop -/

/-- Totality of the lexicographic comparison on character lists. -/
theorem charListLe_total (xs ys : List Char) :
    charListLe xs ys = true ∨ charListLe ys xs = true := by
  induction xs generalizing ys with
  | nil => left; rfl
  | cons a as ih =>
    cases ys with
    | nil => right; rfl
    | cons b bs =>
      by_cases h1 : a < b
      · left; simp [charListLe, h1]
      · by_cases h2 : b < a
        · right; simp [charListLe, h2]
        · rcases ih bs with h | h
          · left; simp [charListLe, h1, h2, h]
          · right; simp [charListLe, h1, h2, h]

/-- Totality of the lexicographic comparison on strings. -/
theorem strLe_total (a b : String) : strLe a b = true ∨ strLe b a = true :=
  charListLe_total a.data b.data

/-- Inserting into the priority sort permutes the extended list. -/
theorem orderedInsertQ_perm (q : QueueRec) (l : List QueueRec) :
    List.Perm (orderedInsertQ q l) (q :: l) := by
  induction l with
  | nil => exact List.Perm.refl _
  | cons r rest ih =>
    rw [orderedInsertQ]
    split_ifs with h
    · exact List.Perm.refl _
    · exact (List.Perm.cons r ih).trans (List.Perm.swap q r rest)

/-- The head after insertion is the new element or the old head. -/
theorem orderedInsertQ_head (q : QueueRec) (l : List QueueRec) :
    (orderedInsertQ q l).head? = some q ∨
      (orderedInsertQ q l).head? = l.head? := by
  cases l with
  | nil => left; rfl
  | cons r rest =>
    rw [orderedInsertQ]
    split_ifs <;> simp

/-- Insertion preserves adjacent sortedness on the priority column. -/
theorem chain_orderedInsertQ (q : QueueRec) (l : List QueueRec)
    (hl : l.Chain' fun a b => strLe a.priority b.priority = true) :
    (orderedInsertQ q l).Chain'
      fun a b => strLe a.priority b.priority = true := by
  induction l with
  | nil => simp [orderedInsertQ]
  | cons r rest ih =>
    rw [orderedInsertQ]
    rw [List.chain'_cons'] at hl
    obtain ⟨hhead, htail⟩ := hl
    split_ifs with h
    · rw [List.chain'_cons]
      exact ⟨h, List.chain'_cons'.mpr ⟨hhead, htail⟩⟩
    · have hrq : strLe r.priority q.priority = true :=
        (strLe_total q.priority r.priority).resolve_left h
      rw [List.chain'_cons']
      refine ⟨?_, ih htail⟩
      intro y hy
      rcases orderedInsertQ_head q rest with hh | hh
      · rw [hh] at hy
        simp only [Option.mem_def, Option.some.injEq] at hy
        exact hy ▸ hrq
      · rw [hh] at hy
        exact hhead y hy

/-- The priority sort permutes its input. -/
theorem insertionSortQ_perm (l : List QueueRec) :
    List.Perm (insertionSortQ l) l := by
  induction l with
  | nil => exact List.Perm.refl _
  | cons q rest ih =>
    exact (orderedInsertQ_perm q (insertionSortQ rest)).trans
      (List.Perm.cons q ih)

/-- The priority sort is adjacently sorted on the priority column. -/
theorem insertionSortQ_chain (l : List QueueRec) :
    (insertionSortQ l).Chain'
      fun a b => strLe a.priority b.priority = true := by
  induction l with
  | nil => simp [insertionSortQ]
  | cons q rest ih => exact chain_orderedInsertQ q _ ih

/-- C5, counterexample: with one `normal` and one `low` started queue, the
dispatcher's `ORDER BY priority` puts the `low` queue first — the priority
column sorts lexicographically — while the claim's ranking (critical,
high, normal, low) demands the `normal` queue first. -/
theorem c5_counterexample :
    startedQueuesOrdered [qNormal, qLow] = [qLow, qNormal] ∧
    claimPriorityRank qNormal.priority < claimPriorityRank qLow.priority := by
  decide

/-- C5, amended: each dispatcher cycle considers exactly the queues in
state `started`, processed in ascending lexicographic order of the
priority string — that is critical, high, low, normal, with `low` before
`normal` rather than the spec's critical, high, normal, low. -/
theorem c5_started_queue_order (qs : List QueueRec) :
    (∀ q ∈ startedQueuesOrdered qs, q.state = "started") ∧
    (startedQueuesOrdered qs).Chain'
      (fun a b => strLe a.priority b.priority = true) ∧
    List.Perm (startedQueuesOrdered qs)
      (qs.filter fun q => q.state == "started") := by
  refine ⟨?_, insertionSortQ_chain _, insertionSortQ_perm _⟩
  intro q hq
  have hmem := (insertionSortQ_perm
    (qs.filter fun q => q.state == "started")).mem_iff.mp hq
  have hf := List.of_mem_filter hmem
  simpa using hf

/-! ## Claim C8 — template substitution -/

/-- A match can only start at an opening brace. -/
theorem matchPlaceholder_none_of_ne (c : Char) (rest : List Char)
    (h : c ≠ lbrace) : matchPlaceholder (c :: rest) = none := by
  cases rest with
  | nil => rfl
  | cons c₂ r =>
    have hb : (c == lbrace) = false := by simpa using h
    simp [matchPlaceholder, hb]

/-- A successful match consumes at least one character. -/
theorem matchPlaceholder_some_length (s : List Char)
    (kr : String × List Char) (h : matchPlaceholder s = some kr) :
    kr.2.length < s.length := by
  match s with
  | [] => simp [matchPlaceholder] at h
  | [c] => simp [matchPlaceholder] at h
  | c₁ :: c₂ :: rest =>
    simp only [matchPlaceholder] at h
    split_ifs at h with hbr
    have hdw : (rest.dropWhile isWordChar).length ≤ rest.length :=
      (List.dropWhile_suffix isWordChar).sublist.length_le
    rcases hdd : rest.dropWhile isWordChar with _ | ⟨d₁, rest1⟩
    · rw [hdd] at h
      simp at h
    · rcases rest1 with _ | ⟨d₂, rest2⟩
      · rw [hdd] at h
        simp at h
      · rw [hdd] at h
        simp only [] at h
        split_ifs at h with hok
        simp only [Option.some.injEq] at h
        have h2 : kr.2 = rest2 := by rw [← h]
        rw [hdd] at hdw
        simp only [List.length_cons] at hdw
        simp only [h2, List.length_cons]
        omega

/-- The fuelled scan does not depend on the fuel once it covers the input
length. -/
theorem scanSegsGo_irrel (f₁ : Nat) : ∀ (f₂ : Nat) (l : List Char),
    l.length ≤ f₁ → l.length ≤ f₂ → scanSegsGo f₁ l = scanSegsGo f₂ l := by
  induction f₁ with
  | zero =>
    intro f₂ l h1 _
    have hl : l = [] := List.eq_nil_of_length_eq_zero (Nat.le_zero.mp h1)
    subst hl
    cases f₂ <;> rfl
  | succ f ih =>
    intro f₂ l h1 h2
    cases l with
    | nil => cases f₂ <;> rfl
    | cons c rest =>
      cases f₂ with
      | zero => simp at h2
      | succ g =>
        have hr1 : rest.length ≤ f := by simpa using h1
        have hr2 : rest.length ≤ g := by simpa using h2
        rw [scanSegsGo, scanSegsGo]
        rcases hm : matchPlaceholder (c :: rest) with _ | kr <;>
          simp only [hm]
        · rw [ih g rest hr1 hr2]
        · have hlt := matchPlaceholder_some_length _ _ hm
          simp only [List.length_cons] at hlt
          rw [ih g kr.2 (by omega) (by omega)]

/-- Scanning steps over a non-brace character as a literal. -/
theorem scanSegs_cons_lit (c : Char) (rest : List Char) (h : c ≠ lbrace) :
    scanSegs (c :: rest) = .lit c :: scanSegs rest := by
  rw [scanSegs, List.length_cons, scanSegsGo,
    matchPlaceholder_none_of_ne c rest h]
  rfl

/-- Scanning steps over a successful match as a placeholder segment. -/
theorem scanSegs_cons_ph (c : Char) (rest : List Char)
    (kr : String × List Char) (h : matchPlaceholder (c :: rest) = some kr) :
    scanSegs (c :: rest) = .ph kr.1 :: scanSegs kr.2 := by
  have hlt := matchPlaceholder_some_length _ _ h
  simp only [List.length_cons] at hlt
  rw [scanSegs, List.length_cons, scanSegsGo, h]
  show Seg.ph kr.1 :: scanSegsGo rest.length kr.2
    = Seg.ph kr.1 :: scanSegs kr.2
  rw [scanSegs, scanSegsGo_irrel rest.length kr.2.length kr.2 (by omega)
    (Nat.le_refl _)]

/-- Take/drop of the word prefix in a rendered placeholder body. -/
theorem takeDrop_word (k m : List Char)
    (hk : ∀ c ∈ k, isWordChar c = true) :
    (k ++ rbrace :: m).takeWhile isWordChar = k ∧
      (k ++ rbrace :: m).dropWhile isWordChar = rbrace :: m := by
  induction k with
  | nil =>
    have hr : isWordChar rbrace = false := by decide
    simp [List.takeWhile_cons, List.dropWhile_cons, hr]
  | cons a t ih =>
    have ha : isWordChar a = true := hk a (by simp)
    have iht := ih fun c hc => hk c (by simp [hc])
    simp [List.takeWhile_cons, List.dropWhile_cons, ha, iht.1, iht.2]

/-- A rendered placeholder is matched back exactly, leaving the tail. -/
theorem matchPlaceholder_rendered (k : String) (rest : List Char)
    (hne : k.data ≠ []) (hw : ∀ c ∈ k.data, isWordChar c = true) :
    matchPlaceholder (lbrace :: lbrace ::
        (k.data ++ rbrace :: rbrace :: rest)) = some (k, rest) := by
  obtain ⟨htake, hdrop⟩ := takeDrop_word k.data (rbrace :: rest) hw
  simp only [matchPlaceholder, beq_self_eq_true, Bool.and_self, if_true,
    htake, hdrop]
  have hemp : k.data.isEmpty = false := by
    cases hd : k.data with
    | nil => exact absurd hd hne
    | cons a t => rfl
  simp [hemp]

/-- Scanning a rendered segment list recovers the segments. -/
theorem scanSegs_renderSegs (segs : List Seg)
    (hsh : ∀ s ∈ segs, segShapeOk s) :
    scanSegs (renderSegs segs) = segs := by
  induction segs with
  | nil => rfl
  | cons s t ih =>
    have iht := ih fun s hs => hsh s (by simp [hs])
    cases s with
    | lit c =>
      have hc : c ≠ lbrace := hsh (.lit c) (by simp)
      rw [renderSegs, scanSegs_cons_lit c _ hc, iht]
    | ph k =>
      obtain ⟨hne, hw⟩ : k.data ≠ [] ∧ ∀ c ∈ k.data, isWordChar c = true :=
        hsh (.ph k) (by simp)
      rw [renderSegs]
      rw [scanSegs_cons_ph _ _ (k, renderSegs t)
        (matchPlaceholder_rendered k (renderSegs t) hne hw)]
      rw [iht]

/-- A subject without opening braces scans to all-literal segments. -/
theorem scanSegs_no_lbrace (l : List Char) (h : ∀ c ∈ l, c ≠ lbrace) :
    scanSegs l = l.map .lit := by
  induction l with
  | nil => rfl
  | cons c rest ih =>
    rw [scanSegs_cons_lit c rest (h c (by simp)), List.map_cons,
      ih fun c hc => h c (by simp [hc])]

/-- A subject without opening braces contains no placeholder. -/
theorem placeholderKeys_no_lbrace (l : List Char)
    (h : ∀ c ∈ l, c ≠ lbrace) : placeholderKeys l = [] := by
  rw [placeholderKeys, scanSegs_no_lbrace l h]
  induction l with
  | nil => rfl
  | cons c rest ih => simp

/-- C8, counterexample: replacement text is not protected from re-matching.
With the single placeholder over `who` covered by `runtime_args`, a value
that itself looks like a placeholder leaves brace residue in the built
command; and with nested braces, the command `\x7b\x7b\x7b\x7ba\x7d\x7d\x7d\x7d`
— whose only placeholder match is over `a`, covered — builds to
`\x7b\x7bx\x7d\x7d`, which is itself a placeholder.  In both cases every
placeholder key was covered, yet the built command has brace residue. -/
theorem c8_counterexample :
    (placeholderKeys "echo hello \x7b\x7bwho\x7d\x7d".data = ["who"] ∧
      dispatchCommand "echo hello \x7b\x7bwho\x7d\x7d"
          (.jobj [("spec_name", .jstr "greet"), ("created_by", .jstr "u"),
                  ("runtime_args",
                    .jobj [("who", .jstr "\x7b\x7boops\x7d\x7d")])])
        = "echo hello \x7b\x7boops\x7d\x7d" ∧
      placeholderKeys "echo hello \x7b\x7boops\x7d\x7d".data = ["oops"]) ∧
    (placeholderKeys "\x7b\x7b\x7b\x7ba\x7d\x7d\x7d\x7d".data = ["a"] ∧
      dispatchCommand "\x7b\x7b\x7b\x7ba\x7d\x7d\x7d\x7d"
          (.jobj [("runtime_args", .jobj [("a", .jstr "x")])])
        = "\x7b\x7bx\x7d\x7d" ∧
      placeholderKeys "\x7b\x7bx\x7d\x7d".data = ["x"]) := by
  decide

/-- C8, amended: substitution replaces exactly the scanned matches —
a covered key becomes its value, a missing key stays literally — and the
built command is free of placeholder residue under the additional
provisos that every brace of the command belongs to a well-formed
placeholder and every substituted value is brace-free; without those
provisos residue can remain even when `runtime_args` covers all keys. -/
theorem c8_template_substitution (segs : List Seg)
    (lookup : String → Option String)
    (hsh : ∀ s ∈ segs, segShapeOk s) :
    substTemplate lookup (renderSegs segs)
        = segs.flatMap (renderSeg lookup) ∧
    ((∀ s ∈ segs, segValOk lookup s) →
      placeholderKeys (substTemplate lookup (renderSegs segs)) = []) := by
  have hsub : substTemplate lookup (renderSegs segs)
      = segs.flatMap (renderSeg lookup) := by
    rw [substTemplate, scanSegs_renderSegs segs hsh]
  refine ⟨hsub, fun hv => ?_⟩
  rw [hsub]
  apply placeholderKeys_no_lbrace
  intro c hc
  obtain ⟨s, hs, hcs⟩ := List.mem_flatMap.mp hc
  cases s with
  | lit c' =>
    have : c = c' := by simpa [renderSeg] using hcs
    exact this ▸ hsh (.lit c') hs
  | ph k =>
    obtain ⟨v, hvk, hvfree⟩ := hv (.ph k) hs
    rw [renderSeg, hvk] at hcs
    exact hvfree c hcs

/-- C8, witness: the amended theorem at the command
`echo \x7b\x7bwho\x7d\x7d` with `who` bound to `world`. -/
theorem c8_witness :
    substTemplate (fun k => if k == "who" then some "world" else none)
        (renderSegs [.lit 'e', .lit 'c', .lit 'h', .lit 'o', .lit ' ',
          .ph "who"])
      = [.lit 'e', .lit 'c', .lit 'h', .lit 'o', .lit ' ',
          Seg.ph "who"].flatMap
          (renderSeg fun k => if k == "who" then some "world" else none) ∧
    placeholderKeys (substTemplate
        (fun k => if k == "who" then some "world" else none)
        (renderSegs [.lit 'e', .lit 'c', .lit 'h', .lit 'o', .lit ' ',
          .ph "who"])) = [] := by
  have h := c8_template_substitution
    [.lit 'e', .lit 'c', .lit 'h', .lit 'o', .lit ' ', .ph "who"]
    (fun k => if k == "who" then some "world" else none)
    (by intro s hs; fin_cases hs <;> simp [segShapeOk] <;> decide)
  exact ⟨h.1, h.2 (by
    intro s hs
    fin_cases hs <;> try trivial
    exact ⟨"world", rfl, by decide⟩)⟩

end Dispatcher
